import Mathlib

/-!
# NFT Minter — shallow embedding and verification

A shallow embedding of the NFT-minting single-page app:

* `src/pages/index.js` — wallet-provider discovery (`getInjectedWallets`,
  `handleConnect`), the form handlers (`handleImageUpload`,
  `handleInputChange`, `handleRemoveImage`, `connectToWallet`) and the
  three-step mint pipeline (`handleMint`);
* `src/pages/api/pinata-upload.js` — the multipart file-pinning proxy;
* the metadata-pinning proxy (`/api/pinata-metadata`).

React `useState` state is modelled as an explicit record `PageState`;
each event handler is a function on it.  Network and filesystem effects
are reified as traces (`NetCall`, `Effect`) returned next to the new
state, and the outcomes of external calls (the two proxies, the contract
transaction, its confirmation) are inputs (`MintEnv`, `PinataOutcome`).
-/

namespace NFTMinter

/-- Whitespace for the JavaScript `String.prototype.trim` builtin (the characters
relevant to form input). -/
def isJsWhitespace (c : Char) : Bool :=
  c = ' ' || c = '\t' || c = '\n' || c = '\r' || c = '\x0b' || c = '\x0c'

/-- Model of the JavaScript `String.prototype.trim` builtin: strip whitespace from
both ends. -/
def jsTrim (s : String) : String :=
  String.mk (((s.data.dropWhile isJsWhitespace).reverse.dropWhile isJsWhitespace).reverse)

/-- A file chosen in the image picker: its byte size and name
(`File.size`, `File.name`). -/
structure ImageFile where
  size : Nat
  fileName : String
  deriving DecidableEq, Repr

/-- The `form` state object of `index.js`:
`{ name, description, attr1Name, attr1Value }`. -/
structure MintForm where
  name : String
  description : String
  attr1Name : String
  attr1Value : String
  deriving DecidableEq, Repr

/-- The initial `form` value: all fields empty strings. -/
def emptyForm : MintForm := ⟨"", "", "", ""⟩

/-- The `useState` variables of the `Home` component that the handlers
read or write.  `providerSelected` models `selectedProvider !== null`. -/
structure PageState where
  isConnected : Bool
  walletAddress : String
  balance : String
  providerSelected : Bool
  selectedImage : Option ImageFile
  imagePreview : Option String
  isMinting : Bool
  success : Bool
  txHash : String
  ipfsHash : String
  form : MintForm
  showWalletSelect : Bool
  deriving DecidableEq, Repr

/-- The state on page load: everything empty / false / null. -/
def initialState : PageState :=
  { isConnected := false
    walletAddress := ""
    balance := ""
    providerSelected := false
    selectedImage := none
    imagePreview := none
    isMinting := false
    success := false
    txHash := ""
    ipfsHash := ""
    form := emptyForm
    showWalletSelect := false }

/-- The client-side size ceiling: `10 * 1024 * 1024` bytes. -/
def sizeLimit : Nat := 10 * 1024 * 1024

/-- Handler `handleImageUpload(file)`: reject (alert, no state change) when
`file.size > 10 * 1024 * 1024`; otherwise store the file and its
preview. -/
def handleImageUpload (file : ImageFile) (st : PageState) : PageState :=
  if file.size > sizeLimit then st
  else { st with selectedImage := some file, imagePreview := some file.fileName }

/-- Handler `handleRemoveImage`: clear the selected image and its preview. -/
def handleRemoveImage (st : PageState) : PageState :=
  { st with selectedImage := none, imagePreview := none }

/-- The four text inputs routed through `handleInputChange` by element
id. -/
inductive FormField
  | name
  | description
  | attr1Name
  | attr1Value
  deriving DecidableEq, Repr

/-- Handler `handleInputChange(e)`: `setForm({ ...form, [e.target.id]: e.target.value })`. -/
def handleInputChange (f : FormField) (v : String) (st : PageState) : PageState :=
  match f with
  | .name => { st with form := { st.form with name := v } }
  | .description => { st with form := { st.form with description := v } }
  | .attr1Name => { st with form := { st.form with attr1Name := v } }
  | .attr1Value => { st with form := { st.form with attr1Value := v } }

/-- The state updates of a successful `connectToWallet`: address,
connected flag, selected provider, balance, and the selection modal
closed.  A failed connect only alerts and changes nothing. -/
def connectToWallet (addr bal : String) (st : PageState) : PageState :=
  { st with walletAddress := addr
            isConnected := true
            providerSelected := true
            balance := bal
            showWalletSelect := false }

/-- Predicate `validateForm()`: `form.name.trim() && form.description.trim() && selectedImage`
— truthy iff both trimmed texts are non-empty and an image is selected. -/
def validateForm (st : PageState) : Bool :=
  (jsTrim st.form.name != "") && (jsTrim st.form.description != "") &&
    st.selectedImage.isSome

/-- One `{ trait_type, value }` entry of the metadata attribute
list. -/
structure MetaAttribute where
  trait_type : String
  value : String
  deriving DecidableEq, Repr

/-- The metadata document built in step 2 of `handleMint`. -/
structure Metadata where
  name : String
  description : String
  image : String
  attributes : List MetaAttribute
  deriving DecidableEq, Repr

/-- Construction of the metadata document from the form and the image
CID: `attributes` holds the single pair iff both `attr1Name` and
`attr1Value` are truthy (non-empty). -/
def buildMetadata (form : MintForm) (imageCID : String) : Metadata :=
  { name := form.name
    description := form.description
    image := "ipfs://" ++ imageCID
    attributes :=
      if form.attr1Name != "" && form.attr1Value != "" then
        [⟨form.attr1Name, form.attr1Value⟩]
      else [] }

/-- Outcome of one proxy call as seen by the client: `ok cid` models a
2xx response whose JSON carries `IpfsHash = cid`; `err` models a non-ok
response (or a failed body parse), which makes `handleMint` throw. -/
inductive UploadResult
  | ok (cid : String)
  | err
  deriving DecidableEq, Repr

/-- The external outcomes one run of `handleMint` can observe:
the two proxy responses, the contract call (`some hash` = transaction
returned, `none` = the provider/contract threw), and whether `tx.wait()`
confirmed. -/
structure MintEnv where
  imageUpload : UploadResult
  metaUpload : UploadResult
  mintTx : Option String
  txWaitOk : Bool
  deriving DecidableEq, Repr

/-- The network interactions of one `handleMint` run, in order:
POST to `/api/pinata-upload` with the file, POST to
`/api/pinata-metadata` with the document, the contract `mint(recipient,
tokenURI)` call, and `tx.wait()`. -/
inductive NetCall
  | imageUploadCall (fileName : String) (fileSize : Nat)
  | metaUploadCall (m : Metadata)
  | mintCall (recipient : String) (tokenURI : String)
  | txWaitCall (hash : String)
  deriving DecidableEq, Repr

/-- Pipeline `handleMint(e)` as a function of the external outcomes `env` and the
current state: returns the state after the run and the ordered list of
network calls made.  Mirrors `index.js` lines 120–187: the two guard
returns, `setIsMinting(true)` and the resets, the three steps with a
`throw` on each failure, the success-path form reset, and the `finally`
clause clearing `isMinting`. -/
def handleMint (env : MintEnv) (st : PageState) : PageState × List NetCall :=
  if !validateForm st || st.isMinting then (st, [])
  else if !st.isConnected || st.walletAddress == "" then (st, [])
  else
    match st.selectedImage with
    | none => (st, [])   -- dead branch: validateForm requires an image
    | some img =>
      let st1 : PageState :=
        { st with isMinting := true, success := false, txHash := "", ipfsHash := "" }
      let c1 := NetCall.imageUploadCall img.fileName img.size
      match env.imageUpload with
      | .err => ({ st1 with isMinting := false }, [c1])
      | .ok imageCID =>
        let st2 : PageState := { st1 with ipfsHash := imageCID }
        let md := buildMetadata st.form imageCID
        let c2 := NetCall.metaUploadCall md
        match env.metaUpload with
        | .err => ({ st2 with isMinting := false }, [c1, c2])
        | .ok metaCID =>
          let tokenURI := "ipfs://" ++ metaCID
          let st3 : PageState := { st2 with ipfsHash := metaCID }
          if !st.providerSelected then
            -- `if (!selectedProvider) throw ...` before any contract call
            ({ st3 with isMinting := false }, [c1, c2])
          else
            let c3 := NetCall.mintCall st.walletAddress tokenURI
            match env.mintTx with
            | none => ({ st3 with isMinting := false }, [c1, c2, c3])
            | some h =>
              let st4 : PageState := { st3 with txHash := h }
              let c4 := NetCall.txWaitCall h
              if !env.txWaitOk then
                ({ st4 with isMinting := false }, [c1, c2, c3, c4])
              else
                ({ st4 with success := true
                            form := emptyForm
                            selectedImage := none
                            imagePreview := none
                            isMinting := false },
                 [c1, c2, c3, c4])

/-- The transaction link rendered by the success panel:
`https://sepolia.etherscan.io/tx/${txHash}`, shown only when `success`
is true. -/
def renderedTxLink (st : PageState) : Option String :=
  if st.success then some ("https://sepolia.etherscan.io/tx/" ++ st.txHash) else none

/-! ## Wallet-provider discovery (`getInjectedWallets`, `handleConnect`) -/

/-- An injected EIP-1193 provider object, reduced to the vendor flags
`getInjectedWallets` inspects plus an identity. -/
structure EthProvider where
  isMetaMask : Bool
  isPhantom : Bool
  isCoinbaseWallet : Bool
  pid : Nat
  deriving DecidableEq, Repr

/-- Global `window.ethereum`: itself a provider (`base`), optionally carrying a
`providers` array when several wallets injected themselves. -/
structure WindowEthereum where
  providers : Option (List EthProvider)
  base : EthProvider
  deriving DecidableEq, Repr

/-- A `{ name, provider }` entry pushed onto the `wallets` list. -/
structure NamedWallet where
  name : String
  provider : EthProvider
  deriving DecidableEq, Repr

/-- The three `if` pushes applied to one provider, in source order:
MetaMask, then Phantom, then Coinbase Wallet. -/
def detectWallet (p : EthProvider) : List NamedWallet :=
  (if p.isMetaMask then [⟨"MetaMask", p⟩] else []) ++
    (if p.isPhantom then [⟨"Phantom", p⟩] else []) ++
      (if p.isCoinbaseWallet then [⟨"Coinbase Wallet", p⟩] else [])

/-- Discovery `getInjectedWallets()`: no `window.ethereum` gives the empty list; a
`providers` array is scanned per provider; otherwise `window.ethereum`
itself is tested. -/
def getInjectedWallets (we : Option WindowEthereum) : List NamedWallet :=
  match we with
  | none => []
  | some e =>
    match e.providers with
    | some ps => (ps.map detectWallet).flatten
    | none => detectWallet e.base

/-- What `handleConnect` does next, by number of wallets found:
alert that none was found, connect straight to the single one, or open
the selection modal over the list. -/
inductive ConnectAction
  | noWalletAlert
  | connectTo (w : NamedWallet)
  | showSelection (ws : List NamedWallet)
  deriving DecidableEq, Repr

/-- Handler `handleConnect()`: dispatch on `wallets.length` (`=== 0`, `=== 1`,
else). -/
def handleConnect (we : Option WindowEthereum) : ConnectAction :=
  let ws := getInjectedWallets we
  match ws with
  | [] => .noWalletAlert
  | [w] => .connectTo w
  | _ :: _ :: _ => .showSelection ws

/-- Whether the action immediately requests account access from a
provider (only `connectTo` does; the alert and the selection modal make
no connection attempt and create no session). -/
def attemptsConnection : ConnectAction → Bool
  | .connectTo _ => true
  | _ => false

/-! ## Reachability of the page state

`selectedImage` is written only by `handleImageUpload` (also when
reached through `handleDrop` or the file input `onChange`), by
`handleRemoveImage`, and by the success path of `handleMint`; the other
handlers leave it alone.  `Reachable` closes the initial state under all
state-writing handlers. -/

/-- One user/network event processed by a handler. -/
inductive Step : PageState → PageState → Prop
  | input (f : FormField) (v : String) (st : PageState) :
      Step st (handleInputChange f v st)
  | image (file : ImageFile) (st : PageState) :
      Step st (handleImageUpload file st)
  | removeImage (st : PageState) :
      Step st (handleRemoveImage st)
  | connect (addr bal : String) (st : PageState) :
      Step st (connectToWallet addr bal st)
  | mint (env : MintEnv) (st : PageState) :
      Step st (handleMint env st).1

/-- States reachable from page load through handler events. -/
inductive Reachable : PageState → Prop
  | init : Reachable initialState
  | step {st st' : PageState} : Reachable st → Step st st' → Reachable st'

/-! ## The pinning proxies -/

/-- A file produced by the multipart parse of `formidable`: the temp path it
was written to and the client-side file name. -/
structure TempFile where
  filepath : String
  originalFilename : String
  deriving DecidableEq, Repr

/-- Outcome of `form.parse(req)`: a thrown parse error, or the parsed
request field `files.file` (its entry (already reduced from the possible array
to its first element, as the handler does)). -/
inductive ParseOutcome
  | parseError (msg : String)
  | parsed (file : Option TempFile)
  deriving DecidableEq, Repr

/-- Outcome of the forwarded Pinata call as the handler observes it:
`ok data` is a 2xx response with body `data`; `fail msg` covers a non-ok
response (whose `data.error` becomes the thrown message) and a
fetch/JSON-parse throw. -/
inductive PinataOutcome
  | ok (data : String)
  | fail (msg : String)
  deriving DecidableEq, Repr

/-- Server-side effects of the upload handler, in order: streaming the
temp file to `pinFileToIPFS`, and `fs.unlinkSync` on it. -/
inductive Effect
  | forward (filepath : String)
  | unlink (filepath : String)
  deriving DecidableEq, Repr

/-- The response body: `{ error: msg }` or the upstream data verbatim. -/
inductive ResponseBody
  | errorBody (msg : String)
  | dataBody (data : String)
  deriving DecidableEq, Repr

/-- An HTTP response: status code and JSON body. -/
structure ApiResponse where
  status : Nat
  body : ResponseBody
  deriving DecidableEq, Repr

/-- Handler of `src/pages/api/pinata-upload.js`: 405 on non-POST; 500 on
a parse throw; 400 when no file field arrived; otherwise forward the
file, and only on an ok upstream response unlink the temp file and
answer 200 — a thrown upstream failure lands in the catch (500) without
reaching the unlink. -/
def pinataUploadHandler (method : String) (parse : ParseOutcome)
    (pinata : PinataOutcome) : ApiResponse × List Effect :=
  if method != "POST" then (⟨405, .errorBody "Method not allowed"⟩, [])
  else
    match parse with
    | .parseError msg => (⟨500, .errorBody msg⟩, [])
    | .parsed none => (⟨400, .errorBody "No file provided"⟩, [])
    | .parsed (some file) =>
      match pinata with
      | .ok data =>
          (⟨200, .dataBody data⟩,
           [.forward file.filepath, .unlink file.filepath])
      | .fail msg =>
          (⟨500, .errorBody msg⟩, [.forward file.filepath])

/-- The single server-side effect of the metadata handler: forwarding
the wrapped document to `pinJSONToIPFS`. -/
inductive MetaCall
  | pinJSON (content : Metadata)
  deriving DecidableEq, Repr

/-- The `/api/pinata-metadata` handler: 405 on non-POST; otherwise
forward the body and answer 200 with the upstream data or 500 with the
thrown message. -/
def pinataMetadataHandler (method : String) (body : Metadata)
    (pinata : PinataOutcome) : ApiResponse × List MetaCall :=
  if method != "POST" then (⟨405, .errorBody "Method not allowed"⟩, [])
  else
    match pinata with
    | .ok data => (⟨200, .dataBody data⟩, [.pinJSON body])
    | .fail msg => (⟨500, .errorBody msg⟩, [.pinJSON body])

/-! ## Derived notions used by the properties -/

/-- Position of a network call in the pipeline: image upload, metadata
upload, mint, confirmation. -/
def callStep : NetCall → Nat
  | .imageUploadCall _ _ => 0
  | .metaUploadCall _ => 1
  | .mintCall _ _ => 2
  | .txWaitCall _ => 3

/-- A trace respects the pipeline order when its step numbers form an
initial segment of image-upload, metadata-upload, mint, confirmation. -/
def orderedTrace (t : List NetCall) : Bool :=
  (t.map callStep).isPrefixOf [0, 1, 2, 3]

/-- Whether a trace contains a metadata-pinning call. -/
def hasMetaCall (t : List NetCall) : Bool :=
  t.any fun c => match c with | .metaUploadCall _ => true | _ => false

/-- Whether a trace contains a contract mint call. -/
def hasMintCall (t : List NetCall) : Bool :=
  t.any fun c => match c with | .mintCall _ _ => true | _ => false

/-- The validation conditions of the invariant: non-empty trimmed name
and description, a selected image within the client-side size ceiling,
and an active wallet session. -/
def mintPreconds (st : PageState) : Prop :=
  jsTrim st.form.name ≠ "" ∧ jsTrim st.form.description ≠ "" ∧
    (∃ img, st.selectedImage = some img ∧ ¬ img.size > sizeLimit) ∧
    st.isConnected = true ∧ st.walletAddress ≠ ""

/-- Invariant: any selected image is within the size ceiling. -/
def imageSizeInv (st : PageState) : Prop :=
  ∀ img, st.selectedImage = some img → img.size ≤ sizeLimit

/-- A run fails at some step: the image upload, the metadata upload, the
missing provider, the contract call, or the confirmation. -/
def runFails (env : MintEnv) (st : PageState) : Prop :=
  env.imageUpload = UploadResult.err ∨ env.metaUpload = UploadResult.err ∨
    st.providerSelected = false ∨ env.mintTx = none ∨ env.txWaitOk = false

/-! ## Concrete data for witnesses -/

/-- An environment in which every external call succeeds. -/
def envAllOk : MintEnv :=
  ⟨UploadResult.ok "CID_IMG", UploadResult.ok "CID_META", some "0xdeadbeef", true⟩

/-- An environment in which the file-pinning call fails. -/
def envImgFail : MintEnv :=
  ⟨UploadResult.err, UploadResult.ok "CID_META", some "0xdeadbeef", true⟩

/-- A 2 MB image file. -/
def img2MB : ImageFile := ⟨2 * 1024 * 1024, "art.png"⟩

/-- A ready-to-mint state: name and description typed, a 2 MB image
selected, wallet connected. -/
def stReady : PageState :=
  connectToWallet "0xA11CE" "1.0000"
    (handleImageUpload img2MB
      (handleInputChange FormField.description "desc"
        (handleInputChange FormField.name "Art1" initialState)))

/-- A state in which a mint run is already in flight. -/
def stBusy : PageState := { stReady with isMinting := true }

/-- A MetaMask-flagged injected provider. -/
def mmProvider : EthProvider := ⟨true, false, false, 0⟩

/-- A Phantom-flagged injected provider. -/
def phProvider : EthProvider := ⟨false, true, false, 1⟩

/-- A provider object with no recognised vendor flag. -/
def unflaggedProvider : EthProvider := ⟨false, false, false, 2⟩


/-! ## Helper lemmas -/

/-- A mint run either leaves the selected image alone or clears it. -/
theorem handleMint_selectedImage (env : MintEnv) (st : PageState) :
    (handleMint env st).1.selectedImage = st.selectedImage ∨
    (handleMint env st).1.selectedImage = none := by
  obtain ⟨iu, mu, mtx, tw⟩ := env
  cases iu <;> cases mu <;> cases mtx <;> cases tw <;>
    (unfold handleMint; repeat' split) <;> simp

/-- Every reachable state keeps any selected image within the size
ceiling: the only handler that sets an image is `handleImageUpload`,
which rejects oversized files. -/
theorem reachable_image_size (s : PageState) (h : Reachable s) : imageSizeInv s := by
  induction h with
  | init => intro img him; simp [initialState] at him
  | step hr hs ih =>
    rename_i st1 st2
    cases hs with
    | input f v =>
      intro img him
      apply ih
      cases f <;> simpa [handleInputChange] using him
    | image file =>
      intro img him
      by_cases hsz : file.size > sizeLimit
      · exact ih img (by simpa [handleImageUpload, hsz] using him)
      · have heq : img = file := by
          simp [handleImageUpload, hsz] at him
          exact him.symm
        subst heq
        omega
    | removeImage =>
      intro img him
      simp [handleRemoveImage] at him
    | connect a b =>
      intro img him
      exact ih img (by simpa [connectToWallet] using him)
    | mint env =>
      intro img him
      rcases handleMint_selectedImage env st1 with he | he
      · exact ih img (he ▸ him)
      · rw [he] at him; cases him

/-- The ready-to-mint state arises from page load by typing the name and
the description, picking a 2 MB image and connecting a wallet. -/
theorem stReady_reachable : Reachable stReady :=
  Reachable.step
    (Reachable.step
      (Reachable.step
        (Reachable.step Reachable.init (Step.input FormField.name "Art1" _))
        (Step.input FormField.description "desc" _))
      (Step.image img2MB _))
    (Step.connect "0xA11CE" "1.0000" _)

/-- Passing validation entails a selected image. -/
theorem validateForm_isSome (st : PageState) (hv : validateForm st = true) :
    ∃ img, st.selectedImage = some img := by
  unfold validateForm at hv
  simp only [Bool.and_eq_true] at hv
  exact Option.isSome_iff_exists.mp hv.2

/-- A submission that fails validation is a no-op with no network
calls. -/
theorem handleMint_noop_of_invalid (env : MintEnv) (st : PageState)
    (h : validateForm st = false) : handleMint env st = (st, []) := by
  unfold handleMint
  simp [h]

/-- A submission without an active wallet session only alerts: no state
change, no network calls. -/
theorem handleMint_noop_of_disconnected (env : MintEnv) (st : PageState)
    (hv : validateForm st = true) (hm : st.isMinting = false)
    (h : st.isConnected = false ∨ st.walletAddress = "") :
    handleMint env st = (st, []) := by
  unfold handleMint
  rcases h with h | h <;> simp [hv, hm, h]

/-! ## The claims -/

/-- Claim C1: in every reachable state, the mint pipeline proceeds to a
network call only if the trimmed name and description are non-empty, an
image is selected (and any selected image is within the 10 MB size
limit), and a wallet session is active; otherwise the submission is a
no-op with zero network calls. -/
theorem C1_validation_gate (env : MintEnv) (st : PageState) (hr : Reachable st) :
    ((handleMint env st).2 ≠ [] → mintPreconds st) ∧
    (¬ mintPreconds st → handleMint env st = (st, [])) := by
  constructor
  · intro hnet
    by_cases hv : validateForm st = true
    · by_cases hm : st.isMinting = false
      · by_cases hc : st.isConnected = true
        · by_cases ha : st.walletAddress = ""
          · exact absurd (congrArg Prod.snd
              (handleMint_noop_of_disconnected env st hv hm (Or.inr ha))) hnet
          · have hv' := hv
            unfold validateForm at hv'
            simp only [Bool.and_eq_true, bne_iff_ne, ne_eq] at hv'
            obtain ⟨⟨hname, hdesc⟩, himg⟩ := hv'
            obtain ⟨img, himg⟩ := Option.isSome_iff_exists.mp himg
            have hsz := reachable_image_size st hr img himg
            exact ⟨hname, hdesc, ⟨img, himg, by omega⟩, hc, ha⟩
        · have hc' : st.isConnected = false := by
            cases h : st.isConnected
            · rfl
            · exact absurd h hc
          exact absurd (congrArg Prod.snd
            (handleMint_noop_of_disconnected env st hv hm (Or.inl hc'))) hnet
      · have hm' : st.isMinting = true := by
          cases h : st.isMinting
          · exact absurd h hm
          · rfl
        have hid : handleMint env st = (st, []) := by
          unfold handleMint; simp [hm']
        exact absurd (congrArg Prod.snd hid) hnet
    · have hv' : validateForm st = false := by
        cases h : validateForm st
        · rfl
        · exact absurd h hv
      exact absurd (congrArg Prod.snd (handleMint_noop_of_invalid env st hv')) hnet
  · intro hnp
    by_cases hv : validateForm st = true
    · by_cases hm : st.isMinting = false
      · by_cases hc : st.isConnected = true
        · by_cases ha : st.walletAddress = ""
          · exact handleMint_noop_of_disconnected env st hv hm (Or.inr ha)
          · exfalso
            apply hnp
            have hv' := hv
            unfold validateForm at hv'
            simp only [Bool.and_eq_true, bne_iff_ne, ne_eq] at hv'
            obtain ⟨⟨hname, hdesc⟩, himg⟩ := hv'
            obtain ⟨img, himg⟩ := Option.isSome_iff_exists.mp himg
            have hsz := reachable_image_size st hr img himg
            exact ⟨hname, hdesc, ⟨img, himg, by omega⟩, hc, ha⟩
        · have hc' : st.isConnected = false := by
            cases h : st.isConnected
            · rfl
            · exact absurd h hc
          exact handleMint_noop_of_disconnected env st hv hm (Or.inl hc')
      · have hm' : st.isMinting = true := by
          cases h : st.isMinting
          · exact absurd h hm
          · rfl
        unfold handleMint; simp [hm']
    · have hv' : validateForm st = false := by
        cases h : validateForm st
        · rfl
        · exact absurd h hv
      exact handleMint_noop_of_invalid env st hv'

/-- Witness for C1: the ready state satisfies the preconditions (via the
theorem applied to a run that makes a network call), and on the initial
state — whose preconditions fail — submission is a no-op. -/
theorem C1_validation_gate_witness :
    mintPreconds stReady ∧ handleMint envAllOk initialState = (initialState, []) :=
  ⟨(C1_validation_gate envImgFail stReady stReady_reachable).1 (by decide),
   (C1_validation_gate envAllOk initialState Reachable.init).2
     (fun hp => hp.1 rfl)⟩

/-- Claim C2: every mint run issues its network calls strictly in the
order image-upload, metadata-upload, mint, confirmation (the trace is an
initial segment of that sequence); if the file-pinning call fails the
metadata-pinning call and the mint call are never made, and if the
metadata-pinning call fails the mint call is never made. -/
theorem C2_pipeline_order (env : MintEnv) (st : PageState) :
    orderedTrace (handleMint env st).2 = true ∧
    (env.imageUpload = UploadResult.err →
      hasMetaCall (handleMint env st).2 = false ∧
      hasMintCall (handleMint env st).2 = false) ∧
    (env.metaUpload = UploadResult.err →
      hasMintCall (handleMint env st).2 = false) := by
  obtain ⟨iu, mu, mtx, tw⟩ := env
  refine ⟨?_, fun hiu => ?_, fun hmu => ?_⟩
  · cases iu <;> cases mu <;> cases mtx <;> cases tw <;>
      (simp only [handleMint]; repeat' split) <;> rfl
  · cases iu with
    | ok cid => exact absurd hiu (by simp)
    | err =>
      simp only [handleMint]
      repeat' split
      all_goals exact ⟨rfl, rfl⟩
  · cases mu with
    | ok cid => exact absurd hmu (by simp)
    | err =>
      cases iu <;> (simp only [handleMint]; repeat' split) <;> rfl

/-- Witness for C2: with a failing file-pinning call on the ready state,
the theorem yields that no metadata and no mint call is made. -/
theorem C2_pipeline_order_witness :
    hasMetaCall (handleMint envImgFail stReady).2 = false ∧
    hasMintCall (handleMint envImgFail stReady).2 = false :=
  (C2_pipeline_order envImgFail stReady).2.1 rfl

/-- Counterexample to C3 as stated: on the multipart path with an
upstream failure, the temp file is forwarded but never unlinked, so the
removal does not happen on every outcome. -/
theorem C3_cleanup_counterexample :
    ¬ ∀ (file : TempFile) (pinata : PinataOutcome),
        Effect.unlink file.filepath ∈
          (pinataUploadHandler "POST" (ParseOutcome.parsed (some file)) pinata).2 := by
  intro h
  have h1 := h ⟨"/tmp/upload1", "art.png"⟩ (PinataOutcome.fail "upstream error")
  simp [pinataUploadHandler] at h1

/-- Claim C3 (amended): on the multipart path the temp file is removed
after the forward exactly on the success outcome; on a failure outcome
the handler reaches the catch block and the unlink never runs. -/
theorem C3_unlink_iff_success (file : TempFile) (pinata : PinataOutcome) :
    (Effect.unlink file.filepath ∈
        (pinataUploadHandler "POST" (ParseOutcome.parsed (some file)) pinata).2) ↔
      ∃ data, pinata = PinataOutcome.ok data := by
  cases pinata with
  | ok d => simp [pinataUploadHandler]
  | fail m => simp [pinataUploadHandler]

/-- Claim C4: whenever a mint run fails at any step, the in-progress
flag ends false and the form fields — name, description, attribute pair,
selected image, preview — keep the values they held when the run
started. -/
theorem C4_failure_preserves_form (env : MintEnv) (st : PageState)
    (hm : st.isMinting = false) (hf : runFails env st) :
    (handleMint env st).1.isMinting = false ∧
    (handleMint env st).1.form = st.form ∧
    (handleMint env st).1.selectedImage = st.selectedImage ∧
    (handleMint env st).1.imagePreview = st.imagePreview := by
  obtain ⟨iu, mu, mtx, tw⟩ := env
  cases iu <;> cases mu <;> cases mtx <;> cases tw <;>
    (unfold handleMint; repeat' split) <;>
    simp_all [runFails]

/-- Witness for C4: a failing image upload on the ready state leaves the
flag false and the form intact. -/
theorem C4_failure_preserves_form_witness :
    (handleMint envImgFail stReady).1.isMinting = false ∧
    (handleMint envImgFail stReady).1.form = stReady.form ∧
    (handleMint envImgFail stReady).1.selectedImage = stReady.selectedImage ∧
    (handleMint envImgFail stReady).1.imagePreview = stReady.imagePreview :=
  C4_failure_preserves_form envImgFail stReady rfl (Or.inl rfl)

/-- Claim C5: after a fully successful mint run (both uploads succeed,
the transaction is returned and confirmed), the form fields, the
selected image and its preview are reset to empty and the in-progress
flag is false. -/
theorem C5_success_resets_form (st : PageState) (cidI cidM txh : String)
    (hv : validateForm st = true) (hm : st.isMinting = false)
    (hc : st.isConnected = true) (ha : st.walletAddress ≠ "")
    (hp : st.providerSelected = true) :
    (handleMint ⟨UploadResult.ok cidI, UploadResult.ok cidM, some txh, true⟩ st).1.form
        = emptyForm ∧
    (handleMint ⟨UploadResult.ok cidI, UploadResult.ok cidM, some txh, true⟩ st).1.selectedImage
        = none ∧
    (handleMint ⟨UploadResult.ok cidI, UploadResult.ok cidM, some txh, true⟩ st).1.imagePreview
        = none ∧
    (handleMint ⟨UploadResult.ok cidI, UploadResult.ok cidM, some txh, true⟩ st).1.isMinting
        = false ∧
    (handleMint ⟨UploadResult.ok cidI, UploadResult.ok cidM, some txh, true⟩ st).1.success
        = true := by
  have ha' : (st.walletAddress == "") = false := beq_eq_false_iff_ne.mpr ha
  have himg := validateForm_isSome st hv
  obtain ⟨img, himg⟩ := himg
  unfold handleMint
  simp [hv, hm, hc, ha', hp, himg]

/-- Witness for C5: the ready state after an all-success run. -/
theorem C5_success_resets_form_witness :
    (handleMint envAllOk stReady).1.form = emptyForm ∧
    (handleMint envAllOk stReady).1.selectedImage = none ∧
    (handleMint envAllOk stReady).1.imagePreview = none ∧
    (handleMint envAllOk stReady).1.isMinting = false ∧
    (handleMint envAllOk stReady).1.success = true :=
  C5_success_resets_form stReady "CID_IMG" "CID_META" "0xdeadbeef"
    (by decide) rfl rfl (by decide) rfl

/-- Claim C6: in a fully successful run whose metadata pin returns
`cidM`, the contract mint call receives the connected wallet address and
the token reference `ipfs://cidM`, the returned hash is stored, and the
success panel renders the transaction link containing it. -/
theorem C6_mint_call_and_link (st : PageState) (cidI cidM txh : String)
    (hv : validateForm st = true) (hm : st.isMinting = false)
    (hc : st.isConnected = true) (ha : st.walletAddress ≠ "")
    (hp : st.providerSelected = true) :
    NetCall.mintCall st.walletAddress ("ipfs://" ++ cidM) ∈
      (handleMint ⟨UploadResult.ok cidI, UploadResult.ok cidM, some txh, true⟩ st).2 ∧
    (handleMint ⟨UploadResult.ok cidI, UploadResult.ok cidM, some txh, true⟩ st).1.txHash
      = txh ∧
    renderedTxLink
        (handleMint ⟨UploadResult.ok cidI, UploadResult.ok cidM, some txh, true⟩ st).1
      = some ("https://sepolia.etherscan.io/tx/" ++ txh) := by
  have ha' : (st.walletAddress == "") = false := beq_eq_false_iff_ne.mpr ha
  have himg := validateForm_isSome st hv
  obtain ⟨img, himg⟩ := himg
  unfold handleMint
  simp [hv, hm, hc, ha', hp, himg, renderedTxLink]

/-- Witness for C6: the all-success run on the ready state mints to the
connected address with `ipfs://CID_META` and renders the hash link. -/
theorem C6_mint_call_and_link_witness :
    NetCall.mintCall "0xA11CE" "ipfs://CID_META" ∈ (handleMint envAllOk stReady).2 ∧
    (handleMint envAllOk stReady).1.txHash = "0xdeadbeef" ∧
    renderedTxLink (handleMint envAllOk stReady).1 =
      some "https://sepolia.etherscan.io/tx/0xdeadbeef" :=
  C6_mint_call_and_link stReady "CID_IMG" "CID_META" "0xdeadbeef"
    (by decide) rfl rfl (by decide) rfl

/-- Claim C7: any request to either proxy whose method is not POST gets
a 405 response with a JSON error body, and nothing is forwarded to the
pinning service. -/
theorem C7_non_post_rejected (method : String) (parse : ParseOutcome)
    (body : Metadata) (pinataA pinataB : PinataOutcome)
    (h : method ≠ "POST") :
    pinataUploadHandler method parse pinataA =
      (⟨405, ResponseBody.errorBody "Method not allowed"⟩, []) ∧
    pinataMetadataHandler method body pinataB =
      (⟨405, ResponseBody.errorBody "Method not allowed"⟩, []) := by
  have hb : (method != "POST") = true := by simpa using h
  constructor
  · unfold pinataUploadHandler; simp [hb]
  · unfold pinataMetadataHandler; simp [hb]

/-- Witness for C7: a GET request to both proxies. -/
theorem C7_non_post_rejected_witness :
    pinataUploadHandler "GET" (ParseOutcome.parsed none) (PinataOutcome.ok "d") =
      (⟨405, ResponseBody.errorBody "Method not allowed"⟩, []) ∧
    pinataMetadataHandler "GET" (buildMetadata emptyForm "c") (PinataOutcome.ok "d") =
      (⟨405, ResponseBody.errorBody "Method not allowed"⟩, []) :=
  C7_non_post_rejected "GET" (ParseOutcome.parsed none) (buildMetadata emptyForm "c")
    (PinataOutcome.ok "d") (PinataOutcome.ok "d") (by decide)

/-- Claim C8: connecting dispatches on the discovered wallets — none
found gives the no-wallet alert with no connection attempt, exactly one
is connected to directly, and two or more open the selection prompt
listing all of them with no connection attempt before a pick. -/
theorem C8_connect_dispatch (we : Option WindowEthereum) :
    (getInjectedWallets we = [] →
        handleConnect we = ConnectAction.noWalletAlert ∧
        attemptsConnection (handleConnect we) = false) ∧
    (∀ w, getInjectedWallets we = [w] →
        handleConnect we = ConnectAction.connectTo w) ∧
    (2 ≤ (getInjectedWallets we).length →
        handleConnect we = ConnectAction.showSelection (getInjectedWallets we) ∧
        attemptsConnection (handleConnect we) = false) := by
  rcases hws : getInjectedWallets we with _ | ⟨w1, _ | ⟨w2, rest⟩⟩
  · refine ⟨fun _ => ⟨?_, ?_⟩, fun w hw => ?_, fun h2 => ?_⟩
    · simp [handleConnect, hws]
    · simp [handleConnect, hws, attemptsConnection]
    · simp [hws] at hw
    · simp [hws] at h2
  · refine ⟨fun he => ?_, fun w hw => ?_, fun h2 => ?_⟩
    · simp [hws] at he
    · simp [hws] at hw
      simp [handleConnect, hws, hw]
    · simp [hws] at h2
  · refine ⟨fun he => ?_, fun w hw => ?_, fun h2 => ⟨?_, ?_⟩⟩
    · simp [hws] at he
    · simp [hws] at hw
    · simp [handleConnect, hws]
    · simp [handleConnect, hws, attemptsConnection]

/-- Witness for C8: no provider, a single MetaMask provider, and a
MetaMask-plus-Phantom providers array. -/
theorem C8_connect_dispatch_witness :
    handleConnect none = ConnectAction.noWalletAlert ∧
    handleConnect (some ⟨none, mmProvider⟩) =
      ConnectAction.connectTo ⟨"MetaMask", mmProvider⟩ ∧
    handleConnect (some ⟨some [mmProvider, phProvider], unflaggedProvider⟩) =
      ConnectAction.showSelection
        [⟨"MetaMask", mmProvider⟩, ⟨"Phantom", phProvider⟩] := by
  refine ⟨((C8_connect_dispatch none).1 (by decide)).1,
          (C8_connect_dispatch (some ⟨none, mmProvider⟩)).2.1 ⟨"MetaMask", mmProvider⟩
            (by decide),
          ((C8_connect_dispatch
              (some ⟨some [mmProvider, phProvider], unflaggedProvider⟩)).2.2
            (by decide)).1.trans (by decide)⟩

/-- Claim C9: while a run is in flight (`isMinting` true) a further
submission is ignored: no state change and no network calls. -/
theorem C9_inflight_submission_ignored (env : MintEnv) (st : PageState)
    (h : st.isMinting = true) :
    handleMint env st = (st, []) := by
  unfold handleMint
  simp [h]

/-- Witness for C9: the busy state with an all-success environment. -/
theorem C9_inflight_submission_ignored_witness :
    handleMint envAllOk stBusy = (stBusy, []) :=
  C9_inflight_submission_ignored envAllOk stBusy rfl

/-- Claim C10: a POST to the file-pinning proxy whose multipart body
parses but has no file field gets status 400 with body
`{error: "No file provided"}` and nothing is forwarded upstream. -/
theorem C10_no_file_gives_400 (pinata : PinataOutcome) :
    pinataUploadHandler "POST" (ParseOutcome.parsed none) pinata =
      (⟨400, ResponseBody.errorBody "No file provided"⟩, []) := rfl

end NFTMinter
